import Mathlib

/-!
Shallow embedding of `ringbuffer.py` (class `RingBuffer`).

Correspondence with the natural-language specification:
the spec's `write_cursor` is the source's `start_pos` (pushes write at
`start_pos` and `shift` advances it), and the spec's `read_cursor` is the
source's `end_pos` (pulls read at `end_pos` and advance it).

Bytes are modelled as `Nat`, the byte store as `List Nat`.  Python's `%`
on a possibly negative left operand with a positive modulus is `Int.emod`;
it is used exactly where the source computes `(self.end_pos - 1) % self.size`.

Every operation that can raise is modelled as returning the pair of the
object state at the moment the call returns or raises, together with
`Except RBError output`; the state component on an error path is the state
at the point of the `raise` statement in the source, which lets atomicity
claims be stated.
-/

deriving instance DecidableEq for Except

/-- Errors raised by the source: `OverflowException` and `ValueError`. -/
inductive RBError where
  | overflow
  | valueError
deriving Repr, DecidableEq

/-- The `RingBuffer` object state: `buf` (a bytearray), the two cursor
fields `start_pos` and `end_pos`, and the `size` field. -/
structure RingBuffer where
  buf : List Nat
  start_pos : Nat
  end_pos : Nat
  size : Nat
deriving Repr, DecidableEq

/-- Well-formedness of a `RingBuffer` state: what `__init__` establishes and
every method preserves (for `resize` in the source this is exactly the part
that survives the shrink bug, see `C2` below; we use it as hypothesis). -/
def RingBuffer.WF (r : RingBuffer) : Prop :=
  2 ≤ r.size ∧ r.start_pos < r.size ∧ r.end_pos < r.size ∧ r.buf.length = r.size

instance (r : RingBuffer) : Decidable r.WF := by
  unfold RingBuffer.WF; infer_instance

/-- `RingBuffer.__init__(size)`: `raise ValueError` when `size < 2`, else a
zero-filled store of length `size` with both cursors 0. -/
def RingBuffer.new (size : Nat) : Except RBError RingBuffer :=
  if size < 2 then .error .valueError
  else .ok { buf := List.replicate size 0, start_pos := 0, end_pos := 0, size := size }

/-- `__len__`: `len(self.buf)`. -/
def RingBuffer.len (r : RingBuffer) : Nat := r.buf.length

/-- `data_size` property. -/
def RingBuffer.data_size (r : RingBuffer) : Nat :=
  if r.end_pos < r.start_pos then r.start_pos - r.end_pos
  else if r.end_pos = r.start_pos then 0
  else r.start_pos + r.size - r.end_pos

/-- `available_size` property: `self.size - self.data_size - 1`. -/
def RingBuffer.available_size (r : RingBuffer) : Nat :=
  r.size - r.data_size - 1

/-- `no_mcp_size` property (the spec's `contiguous_readable_size()`). -/
def RingBuffer.no_mcp_size (r : RingBuffer) : Nat :=
  if r.end_pos < r.start_pos then r.start_pos - r.end_pos
  else if r.end_pos = r.start_pos then 0
  else r.size - r.end_pos

/-- `clear()`: resets both cursors to 0, store untouched. -/
def RingBuffer.clear (r : RingBuffer) : RingBuffer :=
  { r with start_pos := 0, end_pos := 0 }

/-- `resize(size)`: `ValueError` when `size < 2`; early return when equal;
grow extends with zeros; shrink does `del self.buf[self.size - size:]`,
keeping the first `self.size - size` bytes; then `self.size = size` and
`clear()`. -/
def RingBuffer.resize (r : RingBuffer) (size : Nat) :
    RingBuffer × Except RBError Unit :=
  if size < 2 then (r, .error .valueError)
  else if r.size = size then (r, .ok ())
  else if r.size < size then
    (({ r with buf := r.buf ++ List.replicate (size - r.size) 0, size := size }).clear, .ok ())
  else
    (({ r with buf := r.buf.take (r.size - size), size := size }).clear, .ok ())

/-- `is_full()`: `self.start_pos + 1 == self.end_pos` (no modulo). -/
def RingBuffer.is_full (r : RingBuffer) : Bool :=
  r.start_pos + 1 = r.end_pos

/-- `is_empty()`: `self.start_pos == self.end_pos`. -/
def RingBuffer.is_empty (r : RingBuffer) : Bool :=
  r.start_pos = r.end_pos

/-- The `limit` computed in `next()`: `(self.end_pos - 1) % self.size`,
Python semantics (so `size - 1` when `end_pos = 0`). -/
def RingBuffer.nextLimit (r : RingBuffer) : Nat :=
  (((r.end_pos : Int) - 1) % (r.size : Int)).toNat

/-- `next()`: the contiguous writable span, returned as its index bounds
into `buf` (`memoryview(self.buf)[a:b]` becomes the pair `(a, b)`);
raises `OverflowException` when `start_pos == limit`. -/
def RingBuffer.next (r : RingBuffer) : Except RBError (Nat × Nat) :=
  let limit := r.nextLimit
  if r.start_pos < limit then .ok (r.start_pos, limit)
  else if limit < r.start_pos then .ok (r.start_pos, r.size)
  else .error .overflow

/-- `shift(nbytes)`: `self.start_pos = (self.start_pos + nbytes) % self.size`. -/
def RingBuffer.shift (r : RingBuffer) (nbytes : Nat) : RingBuffer :=
  { r with start_pos := (r.start_pos + nbytes) % r.size }

/-- Slice assignment `memoryview(buf)[pos : pos + len(data)] = data`. -/
def setRange (buf : List Nat) (pos : Nat) (data : List Nat) : List Nat :=
  buf.take pos ++ data ++ buf.drop (pos + data.length)

/-- `push_bytes(data)`: `OverflowException` when `len(data) > available_size`;
otherwise obtains the span from `next()` (which itself may raise), writes
`data` in one piece if the span is long enough, else splits the write at the
physical end, writing the remainder at offset 0; finally `shift(length)`. -/
def RingBuffer.push_bytes (r : RingBuffer) (data : List Nat) :
    RingBuffer × Except RBError Unit :=
  let length := data.length
  if length > r.available_size then (r, .error .overflow)
  else
    match r.next with
    | .error e => (r, .error e)
    | .ok (mvStart, mvStop) =>
      if mvStop - mvStart ≥ length then
        (({ r with buf := setRange r.buf mvStart data }).shift length, .ok ())
      else
        let shift_len := mvStop - mvStart
        let buf1 := setRange r.buf mvStart (data.take shift_len)
        let buf2 := setRange buf1 0 (data.drop shift_len)
        (({ r with buf := buf2 }).shift length, .ok ())

/-- `pull_bytes(nbytes)`: `ValueError` when `nbytes < 1`; three cases on the
cursor order.  In the wrapped case (`start_pos < end_pos`), the first branch
returns `bytes(memoryview(self.buf)[start:])` — all bytes from the old
`end_pos` to the physical end — after setting
`end_pos = (end_pos + nbytes) % size`; the second branch crosses the wrap
and returns the two pieces concatenated; otherwise `OverflowException`. -/
def RingBuffer.pull_bytes (r : RingBuffer) (nbytes : Nat) :
    RingBuffer × Except RBError (List Nat) :=
  if nbytes < 1 then (r, .error .valueError)
  else if r.start_pos < r.end_pos then
    if r.end_pos + nbytes ≤ r.size then
      let start := r.end_pos
      ({ r with end_pos := (r.end_pos + nbytes) % r.size }, .ok (r.buf.drop start))
    else if r.start_pos + r.size - r.end_pos ≥ nbytes then
      let start := r.end_pos
      let newEnd := start + nbytes - r.size
      ({ r with end_pos := newEnd }, .ok (r.buf.drop start ++ r.buf.take newEnd))
    else (r, .error .overflow)
  else if r.start_pos > r.end_pos then
    if r.end_pos + nbytes ≤ r.start_pos then
      let start := r.end_pos
      ({ r with end_pos := r.end_pos + nbytes },
        .ok ((r.buf.take (start + nbytes)).drop start))
    else (r, .error .overflow)
  else (r, .error .overflow)

/-! ### Concrete operation traces used by the bug-exhibiting theorems

The states below are reached from `RingBuffer.new 4` by the operations shown
in the theorems; each push stays within `available_size` and each pull within
`data_size` at the time of the call. -/

/-- Fresh buffer of capacity 4. -/
def traceState0 : RingBuffer :=
  { buf := List.replicate 4 0, start_pos := 0, end_pos := 0, size := 4 }

/-- After `push_bytes [10,11,12]`. -/
def traceState1 : RingBuffer := ⟨[10, 11, 12, 0], 3, 0, 4⟩

/-- After `pull_bytes 2` (which returned `[10,11]`). -/
def traceState2 : RingBuffer := ⟨[10, 11, 12, 0], 3, 2, 4⟩

/-- After `push_bytes [13,14]` (the write wrapped): buffered data, in FIFO
order, is `[12, 13, 14]`, wrapped (`start_pos = 1 < end_pos = 2`). -/
def traceState3 : RingBuffer := ⟨[14, 11, 12, 13], 1, 2, 4⟩

/-- After the buggy `pull_bytes 1`. -/
def traceState4 : RingBuffer := ⟨[14, 11, 12, 13], 1, 3, 4⟩

/-- After the final `pull_bytes 2`, the buffer is drained. -/
def traceState5 : RingBuffer := ⟨[14, 11, 12, 13], 1, 1, 4⟩

/-- Capacity-2 buffer after pushing one byte: physically full
(`available_size = 0`) with `start_pos = size - 1 = 1`, `end_pos = 0`. -/
def fullTwo : RingBuffer := ⟨[7, 0], 1, 0, 2⟩

/-- Capacity-4 non-empty buffer after pushing two bytes. -/
def twoOfFour : RingBuffer := ⟨[1, 2, 0, 0], 2, 0, 4⟩

/-! ### Helper lemmas about `next` -/

/-- On states with `end_pos < size`, the Python expression
`(end_pos - 1) % size` evaluates to `size - 1` when `end_pos = 0` and to
`end_pos - 1` otherwise. -/
theorem nextLimit_eq (r : RingBuffer) (he : r.end_pos < r.size) :
    r.nextLimit = if r.end_pos = 0 then r.size - 1 else r.end_pos - 1 := by
  unfold RingBuffer.nextLimit
  split_ifs with h0
  · rw [h0]
    simp only [Nat.cast_zero]
    have hmod : ((0 : Int) - 1) % (r.size : Int) = (r.size : Int) - 1 := by
      rw [show ((0 : Int) - 1) = -(1 : Int) by ring, Int.neg_emod]
      exact Int.emod_eq_of_lt (by omega) (by omega)
    rw [hmod]
    omega
  · rw [Int.emod_eq_of_lt (by omega) (by omega)]
    omega

/-- `next()` raises only `OverflowException`. -/
theorem next_error_overflow (r : RingBuffer) (e : RBError)
    (h : r.next = .error e) : e = .overflow := by
  simp only [RingBuffer.next] at h
  split_ifs at h
  all_goals simp_all

/-- On well-formed states, `next()` raises exactly when the buffer is
physically full, i.e. when `available_size = 0`. -/
theorem next_error_iff (r : RingBuffer) (h : r.WF) :
    r.next = .error .overflow ↔ r.available_size = 0 := by
  obtain ⟨h2, hs, he, hb⟩ := h
  have hl := nextLimit_eq r he
  simp only [RingBuffer.next]
  rw [hl]
  unfold RingBuffer.available_size RingBuffer.data_size
  split_ifs <;> simp_all <;> omega

/-! ### Claim theorems -/

/-- Claim C1: refuted on the code.  Starting from `RingBuffer.new 4`, three
in-bounds operations reach `traceState3`, a wrapped state
(`start_pos = 1 < end_pos = 2`) whose buffered data in FIFO order is
`[12, 13, 14]`.  `pull_bytes 1` there satisfies the claim's hypotheses
(`n = 1 ≥ 1`, `end_pos + n = 3 ≤ size = 4`), and it does advance `end_pos`
by 1, but it returns `[12, 13]` — `bytes(buf[end_pos:])`, of length
`size - end_pos = 2` — instead of the single byte `[12]` of the store range
`[end_pos, end_pos + 1)` required by the claim. -/
theorem pull_wrapped_returns_tail_not_n :
    RingBuffer.new 4 = .ok traceState0
    ∧ traceState0.push_bytes [10, 11, 12] = (traceState1, .ok ())
    ∧ traceState1.pull_bytes 2 = (traceState2, .ok [10, 11])
    ∧ traceState2.push_bytes [13, 14] = (traceState3, .ok ())
    ∧ traceState3.start_pos < traceState3.end_pos
    ∧ 1 ≤ traceState3.data_size
    ∧ traceState3.end_pos + 1 ≤ traceState3.size
    ∧ traceState3.pull_bytes 1 = (traceState4, .ok [12, 13])
    ∧ ((traceState3.buf.take (traceState3.end_pos + 1)).drop traceState3.end_pos
        = [12])
    ∧ [12, 13] ≠ [12] := by
  decide

/-- Claim C2: refuted on the code.  Shrinking does
`del self.buf[self.size - size:]`, which keeps the first
`old_size - new_size` bytes instead of the first `new_size` bytes: resizing
a fresh capacity-10 buffer to 3 leaves a store of length 7, so afterwards
`len()` returns 7 while the `size` field is 3 — the store length no longer
equals the capacity. -/
theorem resize_shrink_wrong_length :
    RingBuffer.new 10
      = .ok ⟨List.replicate 10 0, 0, 0, 10⟩
    ∧ (⟨List.replicate 10 0, 0, 0, 10⟩ : RingBuffer).resize 3
      = (⟨List.replicate 7 0, 0, 0, 3⟩, .ok ())
    ∧ (⟨List.replicate 7 0, 0, 0, 3⟩ : RingBuffer).len = 7
    ∧ (⟨List.replicate 7 0, 0, 0, 3⟩ : RingBuffer).size = 3
    ∧ (7 : Nat) ≠ 3 := by
  decide

/-- Claim C3: refuted on the code.  A five-operation sequence from
`RingBuffer.new 4` in which every push stays within `available_size` and
every pull stays within `data_size` (each bound is stated as a conjunct),
drains the buffer completely, yet the concatenation of the pulls is
`[10,11] ++ [12,13] ++ [13,14] = [10,11,12,13,13,14]`, not the concatenation
`[10,11,12] ++ [13,14] = [10,11,12,13,14]` of the pushes: the byte 13 is
delivered twice.  The FIFO round-trip law fails once a pull happens in the
wrapped state without reaching the physical end (the `buf[start:]` slip in
`pull_bytes`). -/
theorem fifo_roundtrip_fails :
    RingBuffer.new 4 = .ok traceState0
    ∧ 3 ≤ traceState0.available_size
    ∧ traceState0.push_bytes [10, 11, 12] = (traceState1, .ok ())
    ∧ 2 ≤ traceState1.data_size
    ∧ traceState1.pull_bytes 2 = (traceState2, .ok [10, 11])
    ∧ 2 ≤ traceState2.available_size
    ∧ traceState2.push_bytes [13, 14] = (traceState3, .ok ())
    ∧ 1 ≤ traceState3.data_size
    ∧ traceState3.pull_bytes 1 = (traceState4, .ok [12, 13])
    ∧ 2 ≤ traceState4.data_size
    ∧ traceState4.pull_bytes 2 = (traceState5, .ok [13, 14])
    ∧ traceState5.is_empty = true
    ∧ [10, 11] ++ [12, 13] ++ [13, 14] ≠ [10, 11, 12] ++ ([13, 14] : List Nat) := by
  decide

/-- Claim C4, counterexample: the state `fullTwo` is reached from
`RingBuffer.new 2` by one in-bounds push, so it is reachable; it has
`available_size = 0` (and `(start_pos + 1) % size = 0 = end_pos`), yet
`is_full()` returns `false`, because the source compares
`start_pos + 1 == end_pos` without a modulo. -/
theorem is_full_false_negative :
    RingBuffer.new 2 = .ok ⟨List.replicate 2 0, 0, 0, 2⟩
    ∧ (⟨List.replicate 2 0, 0, 0, 2⟩ : RingBuffer).push_bytes [7]
      = (fullTwo, .ok ())
    ∧ fullTwo.available_size = 0
    ∧ (fullTwo.start_pos + 1) % fullTwo.size = fullTwo.end_pos
    ∧ fullTwo.is_full = false := by
  decide

/-- Claim C5, counterexample: on the reachable physically full state
`fullTwo`, pushing the empty byte sequence satisfies
`len(data) = 0 ≤ available_size = 0`, so the claim requires success; but
`next()` raises `OverflowException` (`start_pos == limit`), so the push
fails. -/
theorem push_empty_on_full_overflows :
    RingBuffer.new 2 = .ok ⟨List.replicate 2 0, 0, 0, 2⟩
    ∧ (⟨List.replicate 2 0, 0, 0, 2⟩ : RingBuffer).push_bytes [7]
      = (fullTwo, .ok ())
    ∧ (List.length ([] : List Nat) ≤ fullTwo.available_size)
    ∧ fullTwo.push_bytes [] = (fullTwo, .error .overflow) := by
  decide

/-- Claim C6, counterexample: `resize` returns early when the new capacity
equals the current one, without calling `clear()`: on the reachable
non-empty state `twoOfFour` (capacity 4, two buffered bytes),
`resize 4` succeeds but leaves the buffer non-empty, contradicting the
claim's "including when new_capacity equals the current capacity". -/
theorem resize_same_capacity_not_empty :
    RingBuffer.new 4 = .ok traceState0
    ∧ traceState0.push_bytes [1, 2] = (twoOfFour, .ok ())
    ∧ twoOfFour.resize 4 = (twoOfFour, .ok ())
    ∧ twoOfFour.is_empty = false
    ∧ twoOfFour.data_size = 2 := by
  decide

/-- Claim C8: confirmed.  `new(capacity)` fails with `ValueError` for
`capacity < 2`; for `capacity ≥ 2` it yields a zero-filled store of length
`capacity`, both cursors 0, `data_size = 0`, `is_empty = true`, and
`available_size = capacity - 1`. -/
theorem new_capacity_spec (c : Nat) :
    (c < 2 → RingBuffer.new c = .error .valueError)
    ∧ (2 ≤ c → ∃ r, RingBuffer.new c = .ok r
        ∧ r.buf = List.replicate c 0
        ∧ r.buf.length = c
        ∧ r.start_pos = 0 ∧ r.end_pos = 0 ∧ r.size = c
        ∧ r.data_size = 0 ∧ r.is_empty = true
        ∧ r.available_size = c - 1) := by
  constructor
  · intro h
    simp [RingBuffer.new, h]
  · intro h
    have hnew : RingBuffer.new c = .ok ⟨List.replicate c 0, 0, 0, c⟩ := by
      unfold RingBuffer.new
      rw [if_neg (by omega)]
    refine ⟨⟨List.replicate c 0, 0, 0, c⟩, hnew, rfl, List.length_replicate _ _,
      rfl, rfl, rfl, ?_, ?_, ?_⟩
    · simp [RingBuffer.data_size]
    · simp [RingBuffer.is_empty]
    · unfold RingBuffer.available_size RingBuffer.data_size
      simp

/-- Witness for `new_capacity_spec`, at capacities 1 and 2. -/
theorem new_capacity_spec_witness :
    (RingBuffer.new 1 = .error .valueError)
    ∧ (∃ r, RingBuffer.new 2 = .ok r
        ∧ r.buf = List.replicate 2 0
        ∧ r.buf.length = 2
        ∧ r.start_pos = 0 ∧ r.end_pos = 0 ∧ r.size = 2
        ∧ r.data_size = 0 ∧ r.is_empty = true
        ∧ r.available_size = 2 - 1) :=
  ⟨(new_capacity_spec 1).1 (by decide), (new_capacity_spec 2).2 (by decide)⟩

/-- Claim C9: confirmed.  `no_mcp_size` (the spec's
`contiguous_readable_size()`) is 0 when the cursors are equal,
`start_pos - end_pos` (write minus read) when `end_pos < start_pos`
(non-wrapped), and `size - end_pos` (capacity minus read) when
`start_pos < end_pos` (wrapped). -/
theorem no_mcp_size_spec (r : RingBuffer) :
    (r.start_pos = r.end_pos → r.no_mcp_size = 0)
    ∧ (r.end_pos < r.start_pos → r.no_mcp_size = r.start_pos - r.end_pos)
    ∧ (r.start_pos < r.end_pos → r.no_mcp_size = r.size - r.end_pos) := by
  unfold RingBuffer.no_mcp_size
  refine ⟨fun h => ?_, fun h => ?_, fun h => ?_⟩ <;> split_ifs <;> omega

/-- Witness for `no_mcp_size_spec`, one state per case. -/
theorem no_mcp_size_spec_witness :
    (⟨[0, 0], 0, 0, 2⟩ : RingBuffer).no_mcp_size = 0
    ∧ (⟨[0, 0, 0], 2, 1, 3⟩ : RingBuffer).no_mcp_size = 2 - 1
    ∧ (⟨[0, 0, 0], 1, 2, 3⟩ : RingBuffer).no_mcp_size = 3 - 2 :=
  ⟨(no_mcp_size_spec ⟨[0, 0], 0, 0, 2⟩).1 (by decide),
   (no_mcp_size_spec ⟨[0, 0, 0], 2, 1, 3⟩).2.1 (by decide),
   (no_mcp_size_spec ⟨[0, 0, 0], 1, 2, 3⟩).2.2 (by decide)⟩

/-- Claim C6 as amended: for every state and every `new_capacity ≥ 2` that
differs from the current capacity, `resize` succeeds and yields
`is_empty = true` and `data_size = 0` (with the `size` field updated);
when `new_capacity` equals the current capacity, `resize` is an early-return
no-op that preserves the whole state, so the buffer is empty afterwards only
if it already was. -/
theorem resize_amended (r : RingBuffer) (c : Nat) (h2 : 2 ≤ c) :
    (c ≠ r.size →
      (r.resize c).2 = .ok ()
      ∧ (r.resize c).1.is_empty = true
      ∧ (r.resize c).1.data_size = 0
      ∧ (r.resize c).1.size = c)
    ∧ (c = r.size → r.resize c = (r, .ok ())) := by
  constructor
  · intro hne
    have hc : ¬ (c < 2) := by omega
    have hne' : ¬ (r.size = c) := fun h => hne h.symm
    unfold RingBuffer.resize
    simp only [hc, if_false, hne', if_false]
    split_ifs <;>
      simp [RingBuffer.clear, RingBuffer.is_empty, RingBuffer.data_size]
  · intro he
    subst he
    unfold RingBuffer.resize
    rw [if_neg (by omega), if_pos rfl]

/-- Witness for `resize_amended`: a capacity-2 buffer resized to 3 and to 2. -/
theorem resize_amended_witness :
    ((3 ≠ (⟨[0, 0], 0, 0, 2⟩ : RingBuffer).size →
      ((⟨[0, 0], 0, 0, 2⟩ : RingBuffer).resize 3).2 = .ok ()
      ∧ ((⟨[0, 0], 0, 0, 2⟩ : RingBuffer).resize 3).1.is_empty = true
      ∧ ((⟨[0, 0], 0, 0, 2⟩ : RingBuffer).resize 3).1.data_size = 0
      ∧ ((⟨[0, 0], 0, 0, 2⟩ : RingBuffer).resize 3).1.size = 3)
    ∧ (3 = (⟨[0, 0], 0, 0, 2⟩ : RingBuffer).size →
        (⟨[0, 0], 0, 0, 2⟩ : RingBuffer).resize 3 = (⟨[0, 0], 0, 0, 2⟩, .ok ())))
    ∧ ((2 ≠ (⟨[0, 1], 1, 0, 2⟩ : RingBuffer).size →
      ((⟨[0, 1], 1, 0, 2⟩ : RingBuffer).resize 2).2 = .ok ()
      ∧ ((⟨[0, 1], 1, 0, 2⟩ : RingBuffer).resize 2).1.is_empty = true
      ∧ ((⟨[0, 1], 1, 0, 2⟩ : RingBuffer).resize 2).1.data_size = 0
      ∧ ((⟨[0, 1], 1, 0, 2⟩ : RingBuffer).resize 2).1.size = 2)
    ∧ (2 = (⟨[0, 1], 1, 0, 2⟩ : RingBuffer).size →
        (⟨[0, 1], 1, 0, 2⟩ : RingBuffer).resize 2 = (⟨[0, 1], 1, 0, 2⟩, .ok ()))) :=
  ⟨resize_amended ⟨[0, 0], 0, 0, 2⟩ 3 (by decide),
   resize_amended ⟨[0, 1], 1, 0, 2⟩ 2 (by decide)⟩

/-- Claim C7: confirmed.  Whenever `push_bytes` or `pull_bytes` fails (with
`OverflowException` or `ValueError`), the state component of the result —
the object state at the `raise` — equals the input state: both cursors and
every byte of the store are as before the call.  Every `raise` in the
source occurs before the first mutation of the object. -/
theorem push_pull_atomic_on_failure (r : RingBuffer) (data : List Nat) (n : Nat) :
    (∀ e, (r.push_bytes data).2 = .error e → (r.push_bytes data).1 = r)
    ∧ (∀ e, (r.pull_bytes n).2 = .error e → (r.pull_bytes n).1 = r) := by
  constructor
  · intro e
    simp only [RingBuffer.push_bytes]
    rcases hn : r.next with e' | ⟨a, b⟩ <;> simp only [hn] <;> split_ifs <;> simp
  · intro e
    unfold RingBuffer.pull_bytes
    split_ifs <;> simp

/-- Witness for `push_pull_atomic_on_failure`: a capacity-2 buffer where a
3-byte push overflows and a pull from the empty buffer overflows. -/
theorem push_pull_atomic_on_failure_witness :
    (((⟨[0, 0], 0, 0, 2⟩ : RingBuffer).push_bytes [1, 2, 3]).1 = ⟨[0, 0], 0, 0, 2⟩)
    ∧ (((⟨[0, 0], 0, 0, 2⟩ : RingBuffer).pull_bytes 1).1 = ⟨[0, 0], 0, 0, 2⟩) :=
  ⟨(push_pull_atomic_on_failure ⟨[0, 0], 0, 0, 2⟩ [1, 2, 3] 1).1 .overflow (by decide),
   (push_pull_atomic_on_failure ⟨[0, 0], 0, 0, 2⟩ [1, 2, 3] 1).2 .overflow (by decide)⟩

/-- Claim C4 as amended: on every well-formed state, `is_full()` returns
true exactly when `start_pos + 1 = end_pos` computed without wraparound;
this coincides with `available_size = 0` except at the physical boundary
`start_pos = size - 1 ∧ end_pos = 0`, where the buffer is full
(`available_size = 0`) yet `is_full()` returns false. -/
theorem is_full_amended (r : RingBuffer) (h : r.WF) :
    (r.is_full = true ↔ r.start_pos + 1 = r.end_pos)
    ∧ (r.is_full = true ↔
        (r.available_size = 0 ∧ ¬(r.start_pos = r.size - 1 ∧ r.end_pos = 0))) := by
  obtain ⟨h2, hs, he, hb⟩ := h
  constructor
  · simp [RingBuffer.is_full]
  · unfold RingBuffer.is_full RingBuffer.available_size RingBuffer.data_size
    split_ifs <;> simp <;> omega

/-- Witness for `is_full_amended`, at a full non-boundary state. -/
theorem is_full_amended_witness :
    ((⟨[0, 0, 0], 1, 2, 3⟩ : RingBuffer).is_full = true
      ↔ (⟨[0, 0, 0], 1, 2, 3⟩ : RingBuffer).start_pos + 1
          = (⟨[0, 0, 0], 1, 2, 3⟩ : RingBuffer).end_pos)
    ∧ ((⟨[0, 0, 0], 1, 2, 3⟩ : RingBuffer).is_full = true
      ↔ ((⟨[0, 0, 0], 1, 2, 3⟩ : RingBuffer).available_size = 0
          ∧ ¬((⟨[0, 0, 0], 1, 2, 3⟩ : RingBuffer).start_pos
                = (⟨[0, 0, 0], 1, 2, 3⟩ : RingBuffer).size - 1
              ∧ (⟨[0, 0, 0], 1, 2, 3⟩ : RingBuffer).end_pos = 0))) :=
  is_full_amended ⟨[0, 0, 0], 1, 2, 3⟩ (by decide)

/-- Claim C5 as amended: on every well-formed state, `push_bytes data`
fails with `OverflowException` exactly when `len(data) > available_size` or
the buffer is physically full (`available_size = 0`; in the full case even
the empty push fails, because `next()` raises).  Whenever
`len(data) ≤ available_size` and `available_size > 0`, the push succeeds
and advances `start_pos` (the write cursor) by `len(data)` modulo `size`,
leaving `end_pos` and `size` unchanged. -/
theorem push_bytes_amended (r : RingBuffer) (data : List Nat) (h : r.WF) :
    ((r.push_bytes data).2 = .error .overflow ↔
      (data.length > r.available_size ∨ r.available_size = 0))
    ∧ (data.length ≤ r.available_size → 0 < r.available_size →
        (r.push_bytes data).2 = .ok ()
        ∧ (r.push_bytes data).1.start_pos = (r.start_pos + data.length) % r.size
        ∧ (r.push_bytes data).1.end_pos = r.end_pos
        ∧ (r.push_bytes data).1.size = r.size) := by
  have hiff := next_error_iff r h
  simp only [RingBuffer.push_bytes]
  by_cases hlen : data.length > r.available_size
  · rw [if_pos hlen]
    constructor
    · simp
      omega
    · intro hle
      omega
  · rw [if_neg hlen]
    rcases hn : r.next with e' | ⟨a, b⟩
    · have he' : e' = .overflow := next_error_overflow r e' hn
      subst he'
      have hav : r.available_size = 0 := hiff.mp hn
      simp only [hn]
      constructor
      · simp
        omega
      · intro _ hpos
        omega
    · have hav : r.available_size ≠ 0 := by
        intro h0
        rw [hiff.mpr h0] at hn
        exact absurd hn (by simp)
      simp only [hn]
      split_ifs with hfit
      · constructor
        · simp
          omega
        · intro _ _
          exact ⟨rfl, rfl, rfl, rfl⟩
      · constructor
        · simp
          omega
        · intro _ _
          exact ⟨rfl, rfl, rfl, rfl⟩

/-- Witness for `push_bytes_amended`: a fresh capacity-2 buffer and a
one-byte push. -/
theorem push_bytes_amended_witness :
    (((⟨[0, 0], 0, 0, 2⟩ : RingBuffer).push_bytes [5]).2 = .error .overflow ↔
      (List.length [5] > (⟨[0, 0], 0, 0, 2⟩ : RingBuffer).available_size
        ∨ (⟨[0, 0], 0, 0, 2⟩ : RingBuffer).available_size = 0))
    ∧ (List.length [5] ≤ (⟨[0, 0], 0, 0, 2⟩ : RingBuffer).available_size →
        0 < (⟨[0, 0], 0, 0, 2⟩ : RingBuffer).available_size →
        ((⟨[0, 0], 0, 0, 2⟩ : RingBuffer).push_bytes [5]).2 = .ok ()
        ∧ ((⟨[0, 0], 0, 0, 2⟩ : RingBuffer).push_bytes [5]).1.start_pos
            = ((⟨[0, 0], 0, 0, 2⟩ : RingBuffer).start_pos + List.length [5])
                % (⟨[0, 0], 0, 0, 2⟩ : RingBuffer).size
        ∧ ((⟨[0, 0], 0, 0, 2⟩ : RingBuffer).push_bytes [5]).1.end_pos
            = (⟨[0, 0], 0, 0, 2⟩ : RingBuffer).end_pos
        ∧ ((⟨[0, 0], 0, 0, 2⟩ : RingBuffer).push_bytes [5]).1.size
            = (⟨[0, 0], 0, 0, 2⟩ : RingBuffer).size) :=
  push_bytes_amended ⟨[0, 0], 0, 0, 2⟩ [5] (by decide)

/-- Claim C10: confirmed.  On every well-formed state that is not
physically full (`available_size > 0`), pushing the empty byte sequence
succeeds and returns the state completely unchanged: the zero-length slice
assignment leaves the store as it was and `shift 0` leaves
`start_pos` at `start_pos % size = start_pos`. -/
theorem push_empty_noop (r : RingBuffer) (h : r.WF)
    (h0 : 0 < r.available_size) :
    r.push_bytes [] = (r, .ok ()) := by
  have hiff := next_error_iff r h
  obtain ⟨h2, hs, he, hb⟩ := h
  simp only [RingBuffer.push_bytes, List.length_nil]
  rw [if_neg (by omega)]
  rcases hn : r.next with e' | ⟨a, b⟩
  · have he' : e' = .overflow := next_error_overflow r e' hn
    subst he'
    have hav := hiff.mp hn
    omega
  · simp only [hn]
    rw [if_pos (Nat.zero_le _)]
    unfold setRange RingBuffer.shift
    simp [List.take_append_drop, Nat.mod_eq_of_lt hs]

/-- Witness for `push_empty_noop`: a fresh capacity-2 buffer. -/
theorem push_empty_noop_witness :
    (⟨[0, 0], 0, 0, 2⟩ : RingBuffer).push_bytes []
      = (⟨[0, 0], 0, 0, 2⟩, .ok ()) :=
  push_empty_noop ⟨[0, 0], 0, 0, 2⟩ (by decide) (by decide)
